import Mathlib

/-!
Verification of the staging/normalization engine of the ogp-db-api
repository against its specification.

The Python sources are shallowly embedded: pure helper functions become
Lean functions on `String`/`List`, the SQL fragments that the engine
synthesizes are either embedded at the string level (where the source
itself works with strings, `app/sql.py` and `app/pg.py`) or by their
per-row relational semantics (where the source builds SQLAlchemy
expression trees, `app/operations.py`).  SQL `NULL` is `Option.none`,
SQL numeric values are `ℚ`, SQL `DATE` is a year/month/day triple, and
a raised engine error (e.g. division by zero) is `Except.error`.
-/

/-! ## Models of the Python string primitives

Python strings are modelled through their character-list view
(`String.data`).  Each function mirrors the corresponding `str` method. -/

/-- Model of Python `str.lower` (ASCII case folding suffices for the
column names this code base manipulates). -/
def pyLower (s : String) : String := ⟨s.data.map Char.toLower⟩

/-- Model of Python `s.endswith(suf)`. -/
def pyEndsWith (s suf : String) : Bool := suf.data.isSuffixOf s.data

/-- Model of Python `s.startswith(p)`. -/
def pyStartsWith (s p : String) : Bool := p.data.isPrefixOf s.data

/-- Model of Python `s.removeprefix(p)`: drop `p` in front when present,
otherwise return `s` unchanged. -/
def pyRemovePre (s p : String) : String :=
  if p.data.isPrefixOf s.data then ⟨s.data.drop p.data.length⟩ else s

/-- Model of Python `s.removesuffix(suf)`: drop `suf` at the end when
present, otherwise return `s` unchanged. -/
def pyRemoveSuf (s suf : String) : String :=
  if suf.data.isSuffixOf s.data then ⟨s.data.take (s.data.length - suf.data.length)⟩ else s

/-! ## Column Classifier (`app/column.py` = `app/operations.py`) -/

/-- The five semantic column types of the classifier. -/
inductive PyType
  | int
  | bool
  | date
  | float
  | str
deriving DecidableEq, Repr

/-- `COLUMN_TYPE_NOTATION` from `app/column.py` (identical dict in
`app/operations.py`), in dict insertion order: for each type, its
suffix list and its prefix list. -/
def columnTypeNotation : List (PyType × List String × List String) :=
  [ (.int, ["year"], []),
    (.bool, [], ["is_"]),
    (.date, ["_date"], []),
    (.float, ["_millions", "_value", "_ratio", "_duration", "_thousands", "_rate"], []),
    (.str, [""], []) ]

/-- `data_type` from `app/column.py` / `app/operations.py`: the first
entry of `COLUMN_TYPE_NOTATION` whose suffix list matches the
lower-cased header with `endswith`, or whose prefix list matches it
with `startswith`; `none` models Python's implicit `None` when no
entry matches. -/
def dataType (header : String) : Option PyType :=
  (columnTypeNotation.find? (fun e =>
    e.2.1.any (fun suf => pyEndsWith (pyLower header) suf) ||
    e.2.2.any (fun p => pyStartsWith (pyLower header) p))).map (·.1)

/-- `COLUMN_TYPE_NOTATION` from `app/sql.py`: SQL type names, suffix
`_year` (with underscore), no `_rate` entry in the float list. -/
def sqlColumnTypeNotation : List (String × List String × List String) :=
  [ ("INTEGER", ["_year"], []),
    ("BOOLEAN", [], ["is_"]),
    ("DATE", ["_date"], []),
    ("FLOAT", ["_millions", "_value", "_ratio", "_duration", "_thousands"], []),
    ("VARCHAR", [""], []) ]

/-- `column_tuples` from `app/sql.py`.  Note the source tests the
*prefixes* with `endswith` as well (`lower_col.endswith(prefix)`), and
appends nothing for a name matching no entry. -/
def columnTuples (names : List String) : List (String × String) :=
  names.foldl (fun acc name =>
    match sqlColumnTypeNotation.find? (fun e =>
      e.2.1.any (fun suf => pyEndsWith (pyLower name) suf) ||
      e.2.2.any (fun p => pyEndsWith (pyLower name) p)) with
    | some e => acc ++ [(pyLower name, e.1)]
    | none => acc) []

/-- The classification rule exactly as claim C7 words it: suffix `_year`
(with underscore) gives integer, prefix `is_` boolean, suffix `_date`
date, the float suffixes float, string as total catch-all, first match
winning. -/
def claimedTypeC7 (name : String) : PyType :=
  if pyEndsWith (pyLower name) "_year" then .int
  else if pyStartsWith (pyLower name) "is_" then .bool
  else if pyEndsWith (pyLower name) "_date" then .date
  else if ["_millions", "_value", "_ratio", "_duration", "_thousands", "_rate"].any
      (fun suf => pyEndsWith (pyLower name) suf) then .float
  else .str

/-- The ingestion-side classification as amended: the integer rule fires
on the suffix `year` without requiring an underscore; otherwise as the
claim states. -/
def amendedTypeC7 (name : String) : PyType :=
  if pyEndsWith (pyLower name) "year" then .int
  else if pyStartsWith (pyLower name) "is_" then .bool
  else if pyEndsWith (pyLower name) "_date" then .date
  else if ["_millions", "_value", "_ratio", "_duration", "_thousands", "_rate"].any
      (fun suf => pyEndsWith (pyLower name) suf) then .float
  else .str

/-- The staging-side classification of `column_tuples` as amended: its
own rule table (`_year` with underscore, no `_rate`), with every rule —
including the `is_` one — tested as a suffix of the lower-cased name. -/
def amendedSqlTypeC7 (name : String) : String :=
  if pyEndsWith (pyLower name) "_year" then "INTEGER"
  else if pyEndsWith (pyLower name) "is_" then "BOOLEAN"
  else if pyEndsWith (pyLower name) "_date" then "DATE"
  else if ["_millions", "_value", "_ratio", "_duration", "_thousands"].any
      (fun suf => pyEndsWith (pyLower name) suf) then "FLOAT"
  else "VARCHAR"

/-! ## Values, dates and `type_cast` (`app/column.py` / `app/operations.py`) -/

/-- A calendar date (the logical content of Python `datetime.date` and of
the SQL `DATE` type). -/
structure PyDate where
  year : ℤ
  month : ℕ
  day : ℕ
deriving DecidableEq, Repr

/-- A Python value as produced by `type_cast`. -/
inductive PyVal
  | vInt (i : ℤ)
  | vBool (b : Bool)
  | vDate (d : PyDate)
  | vFloat (q : ℚ)
  | vStr (s : String)
deriving DecidableEq, Repr

/-- Numeric value of a list of ASCII digits. -/
def digitsVal (l : List Char) : ℤ :=
  l.foldl (fun n c => 10 * n + ((c.toNat : ℤ) - 48)) 0

/-- Model of the Python builtin `int(str)`: an optional sign followed by
one or more ASCII digits; anything else raises `ValueError` (`none`).
(Simplified: the builtin also strips surrounding whitespace and allows
digit-group underscores, which no caller here relies on.) -/
def pyIntOfString (s : String) : Option ℤ :=
  let core : ℤ × List Char :=
    match s.data with
    | '-' :: rest => (-1, rest)
    | '+' :: rest => (1, rest)
    | l => (1, l)
  if core.2.isEmpty || !core.2.all Char.isDigit then none
  else some (core.1 * digitsVal core.2)

/-- Model of the Python builtin `float(str)`: an optional sign, one or
more digits, and an optional fractional part; anything else raises
`ValueError` (`none`).  (Simplified: the builtin also accepts exponents,
`inf`/`nan` and surrounding whitespace, which no caller here relies on.) -/
def pyFloatOfString (s : String) : Option ℚ :=
  let core : ℚ × List Char :=
    match s.data with
    | '-' :: rest => (-1, rest)
    | '+' :: rest => (1, rest)
    | l => (1, l)
  match core.2.splitOn '.' with
  | [ds] =>
      if ds.isEmpty || !ds.all Char.isDigit then none
      else some (core.1 * (digitsVal ds : ℚ))
  | [ds, fs] =>
      if ds.isEmpty || !ds.all Char.isDigit || !fs.all Char.isDigit then none
      else some (core.1 * ((digitsVal ds : ℚ) + (digitsVal fs : ℚ) / ((10 : ℚ) ^ fs.length)))
  | _ => none

/-- Days in a month of the proleptic Gregorian calendar. -/
def daysInMonth (y : ℤ) (m : ℕ) : ℕ :=
  if m = 2 then (if y % 4 = 0 ∧ (y % 100 ≠ 0 ∨ y % 400 = 0) then 29 else 28)
  else if m ∈ [4, 6, 9, 11] then 30 else 31

/-- Model of `datetime.strptime(value, "%Y-%m-%d").date()` from
`type_cast`: three dash-separated digit groups forming a valid calendar
date; a mismatch raises `ValueError` (`none`). -/
def pyStrptimeDate (s : String) : Option PyDate :=
  match s.data.splitOn '-' with
  | [ys, ms, ds] =>
      if ys.isEmpty || !ys.all Char.isDigit || ms.isEmpty || !ms.all Char.isDigit
          || ds.isEmpty || !ds.all Char.isDigit then none
      else
        let y : ℤ := digitsVal ys
        let m : ℕ := (digitsVal ms).toNat
        let d : ℕ := (digitsVal ds).toNat
        if 1 ≤ m ∧ m ≤ 12 ∧ 1 ≤ d ∧ d ≤ daysInMonth y m then some ⟨y, m, d⟩ else none
  | _ => none

/-- The truthy strings of `type_cast`'s boolean branch. -/
def boolTrueStrings : List String := ["y", "yes", "t", "true", "on", "1"]

/-- `type_cast` from `app/column.py` (identical in `app/operations.py`):
dispatch on `data_type(column)`; `int`/`float` parse the value (raising
on failure, modelled by `none`), `bool` tests the lower-cased value
against the truthy list, `date` parses `%Y-%m-%d`, and every other case
— including the catch-all string type — returns the value unchanged. -/
def typeCast (column value : String) : Option PyVal :=
  match dataType column with
  | some .int => (pyIntOfString value).map .vInt
  | some .float => (pyFloatOfString value).map .vFloat
  | some .bool => some (.vBool (boolTrueStrings.contains (pyLower value)))
  | some .date => (pyStrptimeDate value).map .vDate
  | _ => some (.vStr value)

/-! ## SQL value semantics

`NULL` is `none`.  Multiplication is strict in `NULL`.  Division is
strict in `NULL`, and a non-`NULL` division by zero raises an engine
error (PostgreSQL raises `division_by_zero` for integer, numeric and
float division alike): `Except.error ()`. -/

/-- Strict SQL multiplication: any `NULL` operand gives `NULL`. -/
def sqlMul (a b : Option ℚ) : Option ℚ :=
  match a, b with
  | some x, some y => some (x * y)
  | _, _ => none

/-- SQL division: strict in `NULL`; a non-`NULL` zero divisor raises. -/
def sqlDivE (a b : Option ℚ) : Except Unit (Option ℚ) :=
  match a, b with
  | some x, some y => if y = 0 then .error () else .ok (some (x / y))
  | _, _ => .ok none

/-! ## Reference series and the cost-normalization expression
(`build_stage_statement`, `app/pg.py`)

A reference series (`reference.exchange_rates`, `reference.gdp_deflators`)
is a table keyed by (country, year) with one numeric value column; the
tables are created with primary key `(country_iso3, year)`
(`app/operations.py`, `load_exchange_rate` / `load_gdp_deflators`), so a
key matches at most one row and each `LEFT JOIN` below contributes at
most one value per input row. -/

/-- A reference series: a list of `(country, year, value)` rows,
unique per `(country, year)`. -/
structure RefSeries where
  entries : List (String × ℤ × ℚ)

/-- The value joined for `(country, year)`; `none` when the series has
no such row (the `LEFT JOIN` then supplies `NULL`). -/
def RefSeries.lookup (t : RefSeries) (c : String) (y : ℤ) : Option ℚ :=
  (t.entries.find? (fun e => e.1 == c && e.2.1 == y)).map (·.2.2)

/-- `SELECT max(year) FROM series`: `none` on an empty series. -/
def RefSeries.latestYear (t : RefSeries) : Option ℤ :=
  (t.entries.map (·.2.1)).max?

/-- Per-row value of the alias `e{idx}` of `build_stage_statement`
(`app/pg.py`): `LEFT JOIN exchange_rates e ON a.country_iso3 =
e.country_code AND a.{stem}_local_year = e.year`.  A `NULL` join key
matches nothing. -/
def joinOwnHist (series : RefSeries) (country : Option String) (histYear : Option ℤ) :
    Option ℚ :=
  match country, histYear with
  | some c, some y => series.lookup c y
  | _, _ => none

/-- Per-row value of the alias `f{idx}`: `LEFT JOIN (SELECT * FROM
exchange_rates WHERE country_code = 'USA') f ON a.{stem}_local_year =
f.year`. -/
def joinUsaHist (series : RefSeries) (histYear : Option ℤ) : Option ℚ :=
  match histYear with
  | some y => series.lookup "USA" y
  | none => none

/-- Per-row value of the alias `d`: the deflator series restricted (by an
inner join against `SELECT max(year)`) to its latest year, left-joined on
the row's country alone. -/
def joinOwnLatest (series : RefSeries) (country : Option String) : Option ℚ :=
  match country, series.latestYear with
  | some c, some y => series.lookup c y
  | _, _ => none

/-- Per-row semantics of the `{stem}_norm_millions` select item emitted
by `build_stage_statement` (`app/pg.py` lines 320–323):

`a.{stem}_local_millions * f.exchange_rate * d.deflation_factor /
e.exchange_rate / g.deflation_factor`

with `e`, `f`, `g`, `d` the joins above (`g` is the deflator analogue of
`e`). -/
def normMillionsCode (er defl : RefSeries) (country : Option String)
    (histYear : Option ℤ) (localMillions : Option ℚ) : Except Unit (Option ℚ) := do
  let p := sqlMul (sqlMul localMillions (joinUsaHist er histYear)) (joinOwnLatest defl country)
  let q ← sqlDivE p (joinOwnHist er country histYear)
  sqlDivE q (joinOwnHist defl country histYear)

/-- The normalization formula exactly as claim C1 words it:
`local_millions × exchange_rate(USA, historical_year) ×
deflator(own_country, latest_year) / exchange_rate(own_country,
historical_year) / deflator(own_country, historical_year)`, the latest
year being the maximum year present in the series, with the same
`NULL`-strict operator semantics. -/
def normMillionsClaim (er defl : RefSeries) (country : String) (histYear : ℤ)
    (localMillions : Option ℚ) : Except Unit (Option ℚ) := do
  let latest : Option ℚ :=
    match defl.latestYear with
    | some ly => defl.lookup country ly
    | none => none
  let p := sqlMul (sqlMul localMillions (er.lookup "USA" histYear)) latest
  let q ← sqlDivE p (er.lookup country histYear)
  sqlDivE q (defl.lookup country histYear)

/-- The cost-stem extraction of `build_stage_statement` (`app/pg.py`
lines 299–304): strip `_year`, `_currency`, `_millions`, `_local` in
turn from a column whose name contains `_cost_local_`. -/
def costStemOf (col : String) : String :=
  pyRemoveSuf (pyRemoveSuf (pyRemoveSuf (pyRemoveSuf col "_year") "_currency") "_millions") "_local"

/-! ## Schedule Reconciler, year/date pairing
(`date_year_case_statements`, `app/operations.py`) -/

/-- The `-07-02` placeholder date for a year (the `STANDARD_DAY`
convention: `cast(concat(year, '-07-02') as DATE)`). -/
def stdDate (y : ℤ) : PyDate := ⟨y, 7, 2⟩

/-- Per-row semantics of the year CASE emitted by
`date_year_case_statements`: `CASE WHEN year IS NULL THEN
cast(extract('year', date) AS INTEGER) ELSE year END` (extracting from a
`NULL` date gives `NULL`). -/
def yearCaseSem (year : Option ℤ) (dat : Option PyDate) : Option ℤ :=
  match year with
  | none => dat.map (·.year)
  | some y => some y

/-- Per-row semantics of the date CASE emitted by
`date_year_case_statements`: `CASE WHEN date IS NULL AND year IS NOT
NULL THEN cast(concat(year, '-07-02') AS DATE) ELSE date END`. -/
def dateCaseSem (year : Option ℤ) (dat : Option PyDate) : Option PyDate :=
  if dat = none ∧ year ≠ none then year.map stdDate else dat

/-- `date_year_case_statements(table, column_stem)` from
`app/operations.py`: the empty list when `{stem}_year` is not among the
selected columns, otherwise the two relabelled CASE expressions (the
caller only passes stems whose `{stem}_date` column exists).  Each
emitted item is its output column name paired with its per-row
semantics on the (year, date) column values. -/
def dateYearCaseStatements (sc : List String) (stem : String) :
    List (String × (Option ℤ → Option PyDate → Option PyVal)) :=
  if sc.contains (stem ++ "_year") = false then []
  else
    [ (stem ++ "_year", fun y d => (yearCaseSem y d).map .vInt),
      (stem ++ "_date", fun y d => (dateCaseSem y d).map .vDate) ]

/-! ## Schedule Reconciler, durations
(`duration_case_statement`, `app/operations.py`)

SQL `date - date` subtraction is modelled through a day number (rata
die, the standard days-from-civil computation); PostgreSQL's result is
the signed number of days between the two dates. -/

/-- Day number of a proleptic Gregorian date (days-from-civil). -/
def ratadie (d : PyDate) : ℤ :=
  let y : ℤ := if d.month ≤ 2 then d.year - 1 else d.year
  let era : ℤ := (if 0 ≤ y then y else y - 399).fdiv 400
  let yoe : ℤ := y - era * 400
  let mp : ℤ := ((d.month : ℤ) + 9).emod 12
  let doy : ℤ := (153 * mp + 2).fdiv 5 + (d.day : ℤ) - 1
  let doe : ℤ := yoe * 365 + yoe.fdiv 4 - yoe.fdiv 100 + doy
  era * 146097 + doe - 719468

/-- SQL `a - b` on dates: signed days. -/
def dateDiff (a b : PyDate) : ℤ := ratadie a - ratadie b

/-- A row valuation: column name to SQL value (`none` = `NULL`). -/
def Row : Type := String → Option PyVal

/-- Read a column as an SQL integer. -/
def getInt (r : Row) (c : String) : Option ℤ :=
  match r c with
  | some (.vInt i) => some i
  | _ => none

/-- Read a column as an SQL date. -/
def getDate (r : Row) (c : String) : Option PyDate :=
  match r c with
  | some (.vDate d) => some d
  | _ => none

/-- Read a column as an SQL float. -/
def getFloat (r : Row) (c : String) : Option ℚ :=
  match r c with
  | some (.vFloat q) => some q
  | _ => none

/-- The inner end/start CASE of `duration_case_statement`: `CASE WHEN
date IS NULL AND year IS NOT NULL THEN cast(concat(year, '-07-02') AS
DATE) ELSE date END`. -/
def endpointCase (dat : Option PyDate) (year : Option ℤ) : Option PyDate :=
  if dat = none ∧ year ≠ none then year.map stdDate else dat

/-- `duration_case_statement(table, column_stem)` from
`app/operations.py`, as the per-row semantics of the emitted select item
for the `{column_stem}_duration` output column.  The duration id strips
an `est_` and then an `act_` prefix from the stem; the four companions
looked up in the selected columns are `start_{id}_year`,
`start_{id}_date`, `{stem}_completion_date`, `{stem}_completion_year`.
When any companion is absent the original duration column is returned
unchanged (pass-through); otherwise the CASE computes `cast(end - start
AS FLOAT) / 365` for `NULL` durations and keeps non-`NULL` ones. -/
def durationCaseStatement (sc : List String) (stem : String) (r : Row) : Option ℚ :=
  let durId := pyRemovePre (pyRemovePre stem "est_") "act_"
  let syc := "start_" ++ durId ++ "_year"
  let sdc := "start_" ++ durId ++ "_date"
  let edc := stem ++ "_completion_date"
  let eyc := stem ++ "_completion_year"
  let durc := stem ++ "_duration"
  if ¬ (sc.contains syc = true ∧ sc.contains sdc = true ∧
        sc.contains edc = true ∧ sc.contains eyc = true) then
    getFloat r durc
  else
    match getFloat r durc with
    | some q => some q
    | none =>
        match endpointCase (getDate r edc) (getInt r eyc),
              endpointCase (getDate r sdc) (getInt r syc) with
        | some e, some s => some ((dateDiff e s : ℚ) / 365)
        | _, _ => none

/-- The duration rule exactly as claim C4 words it for a duration column
`{pre}_{id}_duration`: when the four companion columns `start_{id}_year`,
`start_{id}_date`, `{pre}_{id}_completion_year`,
`{pre}_{id}_completion_date` all exist in the schema, a `NULL` duration
becomes `(end - start) / 365.0` (each endpoint the date column, or the
placeholder-day date built from the year column when the date is `NULL`),
a non-`NULL` duration is preserved, and when any companion is
structurally missing the duration column passes through unmodified. -/
def durationClaimC4 (pre id : String) (sc : List String) (r : Row) : Option ℚ :=
  let stem := pre ++ "_" ++ id
  if sc.contains ("start_" ++ id ++ "_year") = true ∧
     sc.contains ("start_" ++ id ++ "_date") = true ∧
     sc.contains (stem ++ "_completion_year") = true ∧
     sc.contains (stem ++ "_completion_date") = true then
    match getFloat r (stem ++ "_duration") with
    | some q => some q
    | none =>
        let e := endpointCase (getDate r (stem ++ "_completion_date"))
                              (getInt r (stem ++ "_completion_year"))
        let s := endpointCase (getDate r ("start_" ++ id ++ "_date"))
                              (getInt r ("start_" ++ id ++ "_year"))
        match e, s with
        | some ed, some sd => some ((dateDiff ed sd : ℚ) / 365)
        | _, _ => none
  else getFloat r (stem ++ "_duration")

/-- Claim C4 as amended: identical to `durationClaimC4` except that the
start companions are named from the duration id with a further leading
`act_` removed after the leading `est_` (the double strip the source
performs). -/
def durationClaimC4Amended (startId : String) (stem : String) (sc : List String)
    (r : Row) : Option ℚ :=
  if sc.contains ("start_" ++ startId ++ "_year") = true ∧
     sc.contains ("start_" ++ startId ++ "_date") = true ∧
     sc.contains (stem ++ "_completion_year") = true ∧
     sc.contains (stem ++ "_completion_date") = true then
    match getFloat r (stem ++ "_duration") with
    | some q => some q
    | none =>
        let e := endpointCase (getDate r (stem ++ "_completion_date"))
                              (getInt r (stem ++ "_completion_year"))
        let s := endpointCase (getDate r ("start_" ++ startId ++ "_date"))
                              (getInt r ("start_" ++ startId ++ "_year"))
        match e, s with
        | some ed, some sd => some ((dateDiff ed sd : ℚ) / 365)
        | _, _ => none
  else getFloat r (stem ++ "_duration")

/-! ## Materializer (`stage_data` / `update_prod`, `app/operations.py`)

Both functions run the same step sequence against the target table:
`drop_table` when the target exists (executed and committed on its own
by the engine's DDL), then `CREATE TABLE AS SELECT` followed by
`session.commit()`, then `ALTER TABLE ... ADD PRIMARY KEY (project_id,
sample)` followed by a second `session.commit()`.  Each step is its own
committed transaction; a failing step has no effect itself (the engine
rolls its transaction back) and aborts the run with an exception. -/

/-- What occupies the target table slot. -/
inductive TargetTable
  | oldTable
  | newNoPK
  | newWithPK
deriving DecidableEq, Repr

/-- One step of the materialization sequence. -/
inductive MatStep
  | dropOld
  | createAs
  | addPK
deriving DecidableEq, Repr

/-- The step list of `stage_data` (and of `update_prod`): the drop only
when the target already exists. -/
def matSteps (oldExists : Bool) : List MatStep :=
  (if oldExists then [.dropOld] else []) ++ [.createAs, .addPK]

/-- Effect of one committed step on the target-table slot. -/
def applyMatStep : MatStep → Option TargetTable → Option TargetTable
  | .dropOld, _ => none
  | .createAs, _ => some .newNoPK
  | .addPK, some .newNoPK => some .newWithPK
  | .addPK, s => s

/-- Run the steps, failing (exception, run aborted) at step index
`failAt` when that index is within the list; the second component is
`true` when the run completed. -/
def runMat : List MatStep → ℕ → Option TargetTable → Option TargetTable × Bool
  | [], _, s => (s, true)
  | _ :: _, 0, s => (s, false)
  | st :: rest, n + 1, s => runMat rest n (applyMatStep st s)

/-- Initial slot state: the old table when one exists. -/
def matInit (oldExists : Bool) : Option TargetTable :=
  if oldExists then some .oldTable else none

/-! ## Union Reconciler (`build_union_statement`, `app/pg.py`)

The reconciler works on strings.  An input table is modelled as its
name (as interpolated into the statement) paired with its column list
(what `table_columns` reads from the database). -/

/-- An input table: name and column list. -/
abbrev PgTable := String × List String

/-- Insert a column name when not already present (the
`if col[0] not in columns: columns.append(col[0])` step). -/
def insertNew (acc : List String) (c : String) : List String :=
  if acc.contains c then acc else acc ++ [c]

/-- The first loop of `build_union_statement`: all column names across
the inputs, deduplicated in first-seen order. -/
def collectColumns (tables : List PgTable) : List String :=
  tables.foldl (fun acc t => t.2.foldl insertNew acc) []

/-- The `_year` partner of a `_date` column. -/
def yearPartner (c : String) : String := pyRemoveSuf c "_date" ++ "_year"

/-- The second loop of `build_union_statement`: for every `_date` column
whose `_year` partner is absent, append the partner.  The Python loop
iterates over the very list it appends to, but an appended partner ends
in `_year`, never in `_date`, and so appends nothing further: folding
over the original entries while testing membership against the growing
accumulator is the same computation.  `synthStep` is the loop body. -/
def synthStep (acc : List String) (c : String) : List String :=
  if pyEndsWith c "_date" && !(acc.contains (yearPartner c)) then acc ++ [yearPartner c]
  else acc

/-- The second loop of `build_union_statement` (see `synthStep`). -/
def synthYearCols (cols : List String) : List String :=
  cols.foldl synthStep cols

/-- The output column list of `build_union_statement`. -/
def unionColumns (tables : List PgTable) : List String :=
  synthYearCols (collectColumns tables)

/-- The per-table select items (`union_headers[table]`): the column
itself when the table has it, the untyped literal `NULL as {col}`
otherwise. -/
def unionHeaders (tables : List PgTable) (t : PgTable) : List String :=
  (unionColumns tables).map (fun c => if t.2.contains c then c else "NULL as " ++ c)

/-- `select_statement` from `app/sql.py` with `schema`, `where` and
`limit` all `None`. -/
def selectStatement (tableName : String) (cols : List String) : String :=
  "SELECT " ++ String.intercalate ", " cols ++ " FROM " ++ tableName

/-- `union_statement` from `app/sql.py`. -/
def unionStatement (stmts : List String) : String :=
  String.intercalate " UNION " stmts

/-- `build_union_statement` from `app/pg.py`: the unioned SELECT text
and the output column list. -/
def buildUnionStatement (tables : List PgTable) : String × List String :=
  (unionStatement (tables.map (fun t => selectStatement t.1 (unionHeaders tables t))),
   unionColumns tables)

/-! ## Duration SQL text (`app/sql.py`) and `build_duration_statement`
(`app/pg.py`) -/

/-- `date_from_year` from `app/sql.py` with no year literal. -/
def dateFromYearStmt (yearCol : String) : String :=
  "(CASE WHEN " ++ yearCol ++ " is not NULL THEN date(concat(" ++ yearCol ++
    ", '-07-02')) ELSE NULL END)"

/-- One CASE block of `duration_statements` from `app/sql.py` (the
f-string's exact text, newlines and indentation included). -/
def durationCaseStmt (startDate startYear endDate endYear durationCol : String) : String :=
  "CASE WHEN " ++ durationCol ++ " is NULL THEN (\n            (CASE WHEN " ++
    endDate ++ " is NULL THEN " ++ dateFromYearStmt endYear ++ " ELSE " ++ endDate ++
    " END)\n            - (CASE WHEN " ++ startDate ++ " is NULL THEN " ++
    dateFromYearStmt startYear ++ " ELSE " ++ startDate ++
    " END)\n            )::FLOAT / 365\n            ELSE " ++ durationCol ++
    " END as " ++ durationCol

/-- `duration_statements` from `app/sql.py`: the `est_{stem}` block and
the `act` block (whose end columns are the stem-less
`act_completion_date` / `act_completion_year`), joined with `", "`. -/
def durationStatements (colStem : String) : String :=
  String.intercalate ", "
    [ durationCaseStmt ("start_" ++ colStem ++ "_date") ("start_" ++ colStem ++ "_year")
        ("est_" ++ colStem ++ "_completion_date") ("est_" ++ colStem ++ "_completion_year")
        ("est_" ++ colStem ++ "_duration"),
      durationCaseStmt ("start_" ++ colStem ++ "_date") ("start_" ++ colStem ++ "_year")
        "act_completion_date" "act_completion_year" ("act_" ++ colStem ++ "_duration") ]

/-- Loop state of `build_duration_statement`: the select items built so
far, the visited stems, and the columns to add as `NULL`. -/
structure DurBuildState where
  stmts : List String
  visited : List String
  added : List String

/-- The body of `build_duration_statement`'s `for column in columns`
loop. -/
def durBuildStep (columns : List String) (st : DurBuildState) (column : String) :
    DurBuildState :=
  let c := pyLower column
  if pyStartsWith c "start_" && (pyEndsWith c "_date" || pyEndsWith c "_year") then
    let colStem := pyRemoveSuf (pyRemoveSuf (pyRemovePre c "start_") "_year") "_date"
    if st.visited.contains colStem then
      { st with stmts := st.stmts ++ [column] }
    else
      let wanted := [ "start_" ++ colStem ++ "_date", "start_" ++ colStem ++ "_year",
        "est_" ++ colStem ++ "_completion_date", "est_" ++ colStem ++ "_completion_year",
        "est_" ++ colStem ++ "_duration", "act_" ++ colStem ++ "_duration" ]
      let newAdded := st.added ++ wanted.filter (fun w => !(columns.contains w))
      let newStmts := st.stmts ++ [durationStatements colStem] ++
        (if pyEndsWith column "_duration" then [] else [column])
      { stmts := newStmts, visited := st.visited ++ [colStem], added := newAdded }
  else
    { st with stmts := st.stmts ++ [column] }

/-- `build_duration_statement` from `app/pg.py`: seeds the additions
with `act_completion_date` / `act_completion_year` when absent, runs the
loop, and — when anything is to be added — wraps the base statement in
`SELECT *, NULL as ... FROM ({base}) as y`.  Returns the final
`SELECT ... FROM (...) as b` text and the extended column list. -/
def buildDurationStatement (baseStatement : String) (columns : List String) :
    String × List String :=
  let init : DurBuildState :=
    { stmts := [], visited := [],
      added := ["act_completion_date", "act_completion_year"].filter
        (fun c => !(columns.contains c)) }
  let st := columns.foldl (durBuildStep columns) init
  let base :=
    if st.added.length > 0 then
      "SELECT *, " ++ String.intercalate ", " (st.added.map (fun c => "NULL as " ++ c)) ++
        " FROM (" ++ baseStatement ++ ") as y"
    else baseStatement
  let finalStmts :=
    if st.added.length > 0 then
      st.stmts ++ st.added.filter (fun c => !(pyEndsWith c "_duration"))
    else st.stmts
  let finalCols := if st.added.length > 0 then columns ++ st.added else columns
  ("SELECT " ++ String.intercalate ", " finalStmts ++ " FROM (" ++ base ++ ") as b",
   finalCols)

/-! ## Ratio Deriver (`build_stage_statement`, `app/pg.py` lines 289–297) -/

/-- The select item emitted for a lower-cased column `col` that starts
with `act_` and ends with `_duration` whose `est_` counterpart exists:
`{col} / {c_est} AS schedule_{col_stem}_ratio`. -/
def scheduleRatioStmt (col : String) : String :=
  let cEst := "est_" ++ pyRemovePre col "act_"
  let colStem := pyRemoveSuf (pyRemovePre cEst "est_") "_duration"
  col ++ " / " ++ cEst ++ " AS schedule_" ++ colStem ++ "_ratio"

/-- The output column name of that item. -/
def scheduleRatioName (col : String) : String :=
  let cEst := "est_" ++ pyRemovePre col "act_"
  let colStem := pyRemoveSuf (pyRemovePre cEst "est_") "_duration"
  "schedule_" ++ colStem ++ "_ratio"

/-- Per-row semantics of the emitted ratio expression `act / est` under
the SQL division semantics (`NULL`-strict, error on a zero divisor). -/
def scheduleRatioSem (act est : Option ℚ) : Except Unit (Option ℚ) :=
  sqlDivE act est

/-- First-seen deduplication, as the specification words it: the first
occurrence of each name, in order of first occurrence.  (Spec-side
definition, to be compared with the fold the source performs.) -/
def firstSeenSpec : List String → List String
  | [] => []
  | a :: l => a :: firstSeenSpec (l.filter (fun b => b ≠ a))
termination_by l => l.length
decreasing_by
  exact Nat.lt_succ_of_le (List.length_filter_le _ _)

/-! # Theorems -/

/-- Helper: `find?` over a cons cell. -/
theorem findQCons {α} (p : α → Bool) (a : α) (l : List α) :
    List.find? p (a :: l) = if p a then some a else List.find? p l := by
  by_cases h : p a = true
  · simp [List.find?_cons_of_pos _ h, h]
  · simp [List.find?_cons_of_neg, h]

/-- Claim C7 counterexample.  The claim classifies by the suffix `_year`
(with underscore) and asserts the same mapping at ingestion and staging;
but `data_type` tests the suffix `year` without an underscore, so the
column name `midyear` is classified integer at ingestion, while the
claim's rule — and the staging-side `column_tuples` — makes it a plain
string/VARCHAR. -/
theorem c7_counterexample :
    dataType "midyear" = some PyType.int ∧
    claimedTypeC7 "midyear" = PyType.str ∧
    columnTuples ["midyear"] = [("midyear", "VARCHAR")] ∧
    dataType "midyear" ≠ some (claimedTypeC7 "midyear") := by
  refine ⟨by decide, by decide, by decide, by decide⟩

/-- Claim C7 as amended.  `data_type` returns exactly one semantic type
for every column name, decided in the fixed priority order the claim
gives, except that the integer rule fires on the suffix `year` without
requiring an underscore; and the staging-side `column_tuples` applies
its own rule table (`_year` with underscore, no `_rate`, every rule
tested as a suffix), so the two mappings differ on some names —
e.g. `is_active` is boolean at ingestion but VARCHAR at staging. -/
theorem c7_amended (name : String) :
    dataType name = some (amendedTypeC7 name) ∧
    columnTuples [name] = [(pyLower name, amendedSqlTypeC7 name)] ∧
    dataType "is_active" = some PyType.bool ∧
    columnTuples ["is_active"] = [("is_active", "VARCHAR")] := by
  refine ⟨?_, ?_, by decide, by decide⟩
  · have h0 : pyEndsWith (pyLower name) "" = true := by
      simp [pyEndsWith, List.isSuffixOf]
    unfold dataType amendedTypeC7 columnTypeNotation
    simp only [findQCons, List.any_cons, List.any_nil, Bool.or_false, Bool.false_or]
    cases h1 : pyEndsWith (pyLower name) "year" <;>
      cases h2 : pyStartsWith (pyLower name) "is_" <;>
        cases h3 : pyEndsWith (pyLower name) "_date" <;>
          cases h4 : pyEndsWith (pyLower name) "_millions" <;>
            cases h5 : pyEndsWith (pyLower name) "_value" <;>
              cases h6 : pyEndsWith (pyLower name) "_ratio" <;>
                cases h7 : pyEndsWith (pyLower name) "_duration" <;>
                  cases h8 : pyEndsWith (pyLower name) "_thousands" <;>
                    cases h9 : pyEndsWith (pyLower name) "_rate" <;>
                      simp [h0, h1, h2, h3, h4, h5, h6, h7, h8, h9]
  · have h0 : pyEndsWith (pyLower name) "" = true := by
      simp [pyEndsWith, List.isSuffixOf]
    unfold columnTuples amendedSqlTypeC7 sqlColumnTypeNotation
    simp only [List.foldl, findQCons, List.any_cons, List.any_nil, Bool.or_false,
      Bool.false_or]
    cases h1 : pyEndsWith (pyLower name) "_year" <;>
      cases h2 : pyEndsWith (pyLower name) "is_" <;>
        cases h3 : pyEndsWith (pyLower name) "_date" <;>
          cases h4 : pyEndsWith (pyLower name) "_millions" <;>
            cases h5 : pyEndsWith (pyLower name) "_value" <;>
              cases h6 : pyEndsWith (pyLower name) "_ratio" <;>
                cases h7 : pyEndsWith (pyLower name) "_duration" <;>
                  cases h8 : pyEndsWith (pyLower name) "_thousands" <;>
                    simp [h0, h1, h2, h3, h4, h5, h6, h7, h8]

/-- Claim C10 counterexample.  `is_year` starts with `is_`, yet
`type_cast` classifies it integer (the suffix rule `year` outranks the
`is_` prefix rule) and parsing the non-numeric value `abc` raises
`ValueError` (`none`): on this column `type_cast` is neither total nor
boolean-valued. -/
theorem c10_counterexample :
    pyStartsWith "is_year" "is_" = true ∧ typeCast "is_year" "abc" = none := by
  refine ⟨by decide, by decide⟩

/-- Claim C10 as amended.  For a column name starting with `is_` whose
lower-cased form does not end in `year`, `type_cast` is total and
boolean: it returns `True` exactly when the lower-cased value is one of
`y`, `yes`, `t`, `true`, `on`, `1`, and `False` for every other
string. -/
theorem c10_amended (column value : String)
    (h1 : pyStartsWith column "is_" = true)
    (h2 : pyEndsWith (pyLower column) "year" = false) :
    typeCast column value = some (PyVal.vBool (boolTrueStrings.contains (pyLower value))) ∧
    (boolTrueStrings.contains (pyLower value) = true ↔
      pyLower value ∈ ["y", "yes", "t", "true", "on", "1"]) := by
  have hlow : pyStartsWith (pyLower column) "is_" = true := by
    have h1' : "is_".data <+: column.data := by
      rw [← List.isPrefixOf_iff_prefix]; exact h1
    have hmap : ("is_".data.map Char.toLower) <+: (column.data.map Char.toLower) :=
      h1'.map _
    have hm : "is_".data.map Char.toLower = "is_".data := by decide
    show "is_".data.isPrefixOf (pyLower column).data = true
    rw [List.isPrefixOf_iff_prefix]
    simpa [pyLower, hm] using hmap
  have hdt : dataType column = some PyType.bool := by
    unfold dataType columnTypeNotation
    simp [findQCons, List.any_cons, List.any_nil, h2, hlow]
  constructor
  · unfold typeCast
    rw [hdt]
  · simp [boolTrueStrings, List.contains, List.elem_iff]

/-- Witness for `c10_amended` at the column `is_active` and the value
`Yes`. -/
theorem c10_witness :
    pyStartsWith "is_active" "is_" = true ∧
    pyEndsWith (pyLower "is_active") "year" = false ∧
    typeCast "is_active" "Yes" = some (PyVal.vBool true) := by
  refine ⟨by decide, by decide, ?_⟩
  have h := (c10_amended "is_active" "Yes" (by decide) (by decide)).1
  rw [h]
  decide

/-- Claim C5, confirmed.  For a `{stem}_year`/`{stem}_date` pair present
in the reconciled schema, `date_year_case_statements` emits exactly the
two relabelled columns, and per row: a `NULL` year with a non-`NULL`
date becomes the date's year component; a `NULL` date with a non-`NULL`
year `Y` becomes the placeholder date `Y-07-02`; and when both are
present both are left unchanged. -/
theorem c5_year_date_pair (sc : List String) (stem : String) (y : Option ℤ)
    (d : Option PyDate)
    (hy : sc.contains (stem ++ "_year") = true)
    (hd : sc.contains (stem ++ "_date") = true) :
    (dateYearCaseStatements sc stem).map Prod.fst = [stem ++ "_year", stem ++ "_date"] ∧
    (∀ dd, y = none → d = some dd → yearCaseSem y d = some dd.year) ∧
    (∀ yy, d = none → y = some yy → dateCaseSem y d = some ⟨yy, 7, 2⟩) ∧
    (y ≠ none → d ≠ none → yearCaseSem y d = y ∧ dateCaseSem y d = d) := by
  refine ⟨?_, ?_, ?_, ?_⟩
  · have hy' : stem ++ "_year" ∈ sc := by simpa using hy
    unfold dateYearCaseStatements
    simp [hy']
  · rintro dd rfl rfl
    simp [yearCaseSem]
  · rintro yy rfl rfl
    simp [dateCaseSem, stdDate]
  · intro hyn hdn
    cases y with
    | none => exact absurd rfl hyn
    | some yy =>
        cases d with
        | none => exact absurd rfl hdn
        | some dd => simp [yearCaseSem, dateCaseSem]

/-- Witness for `c5_year_date_pair` on the schema `[x_year, x_date]`
with a `NULL` year and the date `2020-05-09`. -/
theorem c5_witness :
    (["x_year", "x_date"] : List String).contains ("x" ++ "_year") = true ∧
    yearCaseSem (none : Option ℤ) (some ⟨2020, 5, 9⟩) = some 2020 := by
  refine ⟨by decide, ?_⟩
  have h := c5_year_date_pair ["x_year", "x_date"] "x" none (some ⟨2020, 5, 9⟩)
    (by decide) (by decide)
  exact h.2.1 ⟨2020, 5, 9⟩ rfl rfl

/-- The counterexample schema for claim C4: the duration column
`est_act_x_duration` (prefix `est`, id `act_x`) with all four companion
columns of the claim present. -/
def c4Schema : List String :=
  [ "est_act_x_duration", "start_act_x_year", "start_act_x_date",
    "est_act_x_completion_year", "est_act_x_completion_date" ]

/-- The counterexample row for claim C4: `NULL` duration, dates
2020-01-01 → 2021-01-01. -/
def c4Row : Row := fun c =>
  if c = "start_act_x_date" then some (.vDate ⟨2020, 1, 1⟩)
  else if c = "est_act_x_completion_date" then some (.vDate ⟨2021, 1, 1⟩)
  else if c = "start_act_x_year" then some (.vInt 2020)
  else if c = "est_act_x_completion_year" then some (.vInt 2021)
  else none

/-- Claim C4 counterexample.  For the duration column
`est_act_x_duration` (`{prefix}_{id}_duration` with prefix `est`, id
`act_x`) all four companion columns named by the claim are present, so
the claim computes `(2021-01-01 − 2020-01-01)/365 = 366/365`; but the
source strips `est_` *and then* `act_` from the stem and looks up
`start_x_year`/`start_x_date`, which are structurally absent, so it
passes the `NULL` duration through unchanged. -/
theorem c4_counterexample :
    durationCaseStatement c4Schema "est_act_x" c4Row = none ∧
    durationClaimC4 "est" "act_x" c4Schema c4Row = some ((366 : ℚ) / 365) ∧
    durationCaseStatement c4Schema "est_act_x" c4Row ≠
      durationClaimC4 "est" "act_x" c4Schema c4Row := by
  have hd : dateDiff ⟨2021, 1, 1⟩ ⟨2020, 1, 1⟩ = 366 := by decide
  have h1 : durationCaseStatement c4Schema "est_act_x" c4Row = none := by decide
  have h2 : durationClaimC4 "est" "act_x" c4Schema c4Row =
      some ((dateDiff ⟨2021, 1, 1⟩ ⟨2020, 1, 1⟩ : ℚ) / 365) := by rfl
  have h2' : durationClaimC4 "est" "act_x" c4Schema c4Row = some ((366 : ℚ) / 365) := by
    rw [h2, hd]
    norm_num
  refine ⟨h1, h2', ?_⟩
  rw [h1, h2']
  simp

/-- Claim C4 as amended.  `duration_case_statement` behaves exactly as
the claim describes — non-`NULL` durations preserved, `NULL` durations
computed as `(end − start)/365` with the placeholder-day rule, full
pass-through on a structurally missing companion — except that the
start companions are `start_{id₀}_year`/`start_{id₀}_date` where `id₀`
is the stem with a leading `est_` and then a leading `act_` removed. -/
theorem c4_amended (sc : List String) (stem : String) (r : Row) :
    durationCaseStatement sc stem r =
      durationClaimC4Amended (pyRemovePre (pyRemovePre stem "est_") "act_") stem sc r := by
  by_cases h1 : ("start_" ++ pyRemovePre (pyRemovePre stem "est_") "act_" ++ "_year") ∈ sc <;>
    by_cases h2 : ("start_" ++ pyRemovePre (pyRemovePre stem "est_") "act_" ++ "_date") ∈ sc <;>
      by_cases h3 : (stem ++ "_completion_date") ∈ sc <;>
        by_cases h4 : (stem ++ "_completion_year") ∈ sc <;>
          simp [durationCaseStatement, durationClaimC4Amended, h1, h2, h3, h4]

/-- Python `removeprefix` drops an appended leading piece exactly. -/
theorem pyRemovePreAppend (p s : String) : pyRemovePre (p ++ s) p = s := by
  have hdata : (p ++ s).data = p.data ++ s.data := String.data_append p s
  have hpre : p.data.isPrefixOf (p ++ s).data = true := by
    rw [List.isPrefixOf_iff_prefix, hdata]
    exact List.prefix_append _ _
  unfold pyRemovePre
  rw [hpre]
  simp only [if_true, hdata, List.drop_left]

/-- Python `removesuffix` drops an appended trailing piece exactly. -/
theorem pyRemoveSufAppend (s suf : String) : pyRemoveSuf (s ++ suf) suf = s := by
  have hdata : (s ++ suf).data = s.data ++ suf.data := String.data_append s suf
  have hsuf : suf.data.isSuffixOf (s ++ suf).data = true := by
    rw [List.isSuffixOf_iff_suffix, hdata]
    exact List.suffix_append _ _
  unfold pyRemoveSuf
  rw [hsuf]
  simp only [if_true, hdata, List.length_append, Nat.add_sub_cancel, List.take_left]

/-- Claim C6 counterexample.  On a row with `act_x_duration = 1.5` and
`est_x_duration = 0`, the emitted bare division `act_x_duration /
est_x_duration` raises the engine's division-by-zero error (PostgreSQL
raises for float division too), aborting the materialization, instead
of evaluating to `NULL` as the claim requires. -/
theorem c6_counterexample :
    scheduleRatioSem (some (3 / 2)) (some 0) = Except.error () ∧
    scheduleRatioSem (some (3 / 2)) (some 0) ≠ Except.ok none := by
  constructor
  · simp [scheduleRatioSem, sqlDivE]
  · simp [scheduleRatioSem, sqlDivE]

/-- Claim C6 as amended.  For columns `act_{X}_duration` and
`est_{X}_duration` both present, staging emits `act_{X}_duration /
est_{X}_duration` named `schedule_{X}_ratio`; a `NULL` numerator or
denominator propagates to `NULL`, a non-`NULL` nonzero denominator
gives the quotient, but a non-`NULL` zero denominator raises the
engine's division-by-zero error (no guard is emitted), aborting the
materialization. -/
theorem c6_amended :
    (∀ x : String,
      scheduleRatioStmt ("act_" ++ (x ++ "_duration")) =
        ("act_" ++ (x ++ "_duration")) ++ " / " ++ ("est_" ++ (x ++ "_duration")) ++
          " AS schedule_" ++ x ++ "_ratio" ∧
      scheduleRatioName ("act_" ++ (x ++ "_duration")) = "schedule_" ++ x ++ "_ratio") ∧
    (∀ a : Option ℚ, scheduleRatioSem a none = Except.ok none) ∧
    (∀ b : Option ℚ, scheduleRatioSem none b = Except.ok none) ∧
    (∀ x y : ℚ, y ≠ 0 → scheduleRatioSem (some x) (some y) = Except.ok (some (x / y))) ∧
    (∀ x : ℚ, scheduleRatioSem (some x) (some 0) = Except.error ()) := by
  refine ⟨?_, ?_, ?_, ?_, ?_⟩
  · intro x
    constructor
    · simp only [scheduleRatioStmt, pyRemovePreAppend, pyRemoveSufAppend]
    · simp only [scheduleRatioName, pyRemovePreAppend, pyRemoveSufAppend]
  · intro a
    cases a <;> simp [scheduleRatioSem, sqlDivE]
  · intro b
    cases b <;> simp [scheduleRatioSem, sqlDivE]
  · intro x y hy
    simp [scheduleRatioSem, sqlDivE, hy]
  · intro x
    simp [scheduleRatioSem, sqlDivE]

/-- Witness for `c6_amended` at `X = x`, `act = 3/2`, `est = 1`. -/
theorem c6_witness :
    (1 : ℚ) ≠ 0 ∧
    scheduleRatioSem (some (3 / 2)) (some 1) = Except.ok (some (3 / 2)) ∧
    scheduleRatioName ("act_" ++ ("x" ++ "_duration")) = "schedule_" ++ "x" ++ "_ratio" := by
  refine ⟨by norm_num, ?_, ?_⟩
  · have h := c6_amended.2.2.2.1 (3 / 2) 1 (by norm_num)
    simpa using h
  · exact (c6_amended.1 "x").2

/-- Claim C2 counterexample.  When the target table exists and the run
fails at the add-primary-key step (index 2: the drop and the `CREATE
TABLE AS` have each already been committed), the post-state is the new
table *without* its `(project_id, sample)` primary-key constraint —
neither the old table nor absence — so the sequence is not atomic in
the claimed sense. -/
theorem c2_counterexample :
    runMat (matSteps true) 2 (matInit true) = (some TargetTable.newNoPK, false) ∧
    some TargetTable.newNoPK ≠ matInit true ∧
    some TargetTable.newNoPK ≠ (none : Option TargetTable) := by
  refine ⟨by decide, by decide, by decide⟩

/-- Claim C2 as amended.  The drop / `CREATE TABLE AS` / add-primary-key
steps are three separately committed transactions (`stage_data` and
`update_prod` both commit between the create and the alter).  A failure
always surfaces to the caller (`false` component), and the post-state
is: the old table for a failure at the drop, no table for a failure at
the create, and the new table *without* its primary key for a failure
at the add-primary-key step; a completed run leaves the keyed table. -/
theorem c2_amended :
    (∀ k, 3 ≤ k → runMat (matSteps true) k (matInit true) =
      (some TargetTable.newWithPK, true)) ∧
    (∀ k, 2 ≤ k → runMat (matSteps false) k (matInit false) =
      (some TargetTable.newWithPK, true)) ∧
    runMat (matSteps true) 0 (matInit true) = (some TargetTable.oldTable, false) ∧
    runMat (matSteps true) 1 (matInit true) = (none, false) ∧
    runMat (matSteps true) 2 (matInit true) = (some TargetTable.newNoPK, false) ∧
    runMat (matSteps false) 0 (matInit false) = (none, false) ∧
    runMat (matSteps false) 1 (matInit false) = (some TargetTable.newNoPK, false) := by
  refine ⟨?_, ?_, by decide, by decide, by decide, by decide, by decide⟩
  · intro k hk
    obtain ⟨j, rfl⟩ := Nat.exists_eq_add_of_le hk
    have h3 : 3 + j = j + 3 := by omega
    rw [h3]
    rfl
  · intro k hk
    obtain ⟨j, rfl⟩ := Nat.exists_eq_add_of_le hk
    have h2 : 2 + j = j + 2 := by omega
    rw [h2]
    rfl

/-- Witness for `c2_amended`: a run over an existing target with no
failing step (`failAt = 3` is past the last step) completes and leaves
the keyed table. -/
theorem c2_witness :
    3 ≤ 3 ∧ runMat (matSteps true) 3 (matInit true) = (some TargetTable.newWithPK, true) :=
  ⟨le_refl 3, c2_amended.1 3 (le_refl 3)⟩

/-- Claim C1, confirmed.  For a cost stem (extracted from
`{stem}_cost_local_millions`; e.g. `est_cost_local_millions` yields the
stem `est_cost` and the output column `est_cost_norm_millions`), the
per-row value of the emitted `{stem}_norm_millions` expression — built
from the four left joins of `build_stage_statement` — equals the
claim's formula: `local_millions × exchange_rate(USA, historical_year)
× deflator(own_country, latest_year) / exchange_rate(own_country,
historical_year) / deflator(own_country, historical_year)`, the latest
year being the maximum year present in the deflator series. -/
theorem c1_norm_formula (er defl : RefSeries) (country : String) (histYear : ℤ)
    (localMillions : Option ℚ) :
    normMillionsCode er defl (some country) (some histYear) localMillions =
      normMillionsClaim er defl country histYear localMillions ∧
    costStemOf "est_cost_local_millions" = "est_cost" ∧
    costStemOf "act_cost_local_millions" = "act_cost" ∧
    costStemOf "est_cost_local_millions" ++ "_norm_millions" = "est_cost_norm_millions" := by
  refine ⟨?_, by decide, by decide, by decide⟩
  cases hly : defl.latestYear <;>
    simp [normMillionsCode, normMillionsClaim, joinOwnHist, joinUsaHist, joinOwnLatest, hly]

set_option maxRecDepth 4096 in
/-- Claim C9: evaluation at the failing input (an asset class with zero
constituent tables).  `build_union_statement([])` returns the empty
string — not a query — and `build_duration_statement` then embeds it as
the empty FROM source `() as y`; the resulting staging text contains
`FROM ()`, which every SQL engine (PostgreSQL included) rejects as a
syntax error, so the staging operation raises instead of yielding an
empty result. -/
theorem c9_zero_tables_eval :
    buildUnionStatement ([] : List PgTable) = ("", []) ∧
    (buildDurationStatement (buildUnionStatement ([] : List PgTable)).1
        (buildUnionStatement ([] : List PgTable)).2).1 =
      "SELECT act_completion_date, act_completion_year FROM (SELECT *, NULL as act_completion_date, NULL as act_completion_year FROM () as y) as b" ∧
    "FROM ()".data <:+:
      (buildDurationStatement (buildUnionStatement ([] : List PgTable)).1
        (buildUnionStatement ([] : List PgTable)).2).1.data := by
  refine ⟨by decide, by decide, by decide⟩

/-- Membership across the first-seen insertion fold of
`build_union_statement`. -/
theorem memFoldInsert (l : List String) : ∀ (acc : List String) (x : String),
    x ∈ l.foldl insertNew acc ↔ x ∈ acc ∨ x ∈ l := by
  induction l with
  | nil => simp
  | cons a t ih =>
      intro acc x
      simp only [List.foldl_cons, ih, insertNew]
      by_cases h : a ∈ acc <;> by_cases hx : x = a <;> simp [h, hx]

/-- The insertion fold preserves freedom from duplicates. -/
theorem nodupFoldInsert (l : List String) : ∀ (acc : List String),
    acc.Nodup → (l.foldl insertNew acc).Nodup := by
  induction l with
  | nil => exact fun acc h => h
  | cons a t ih =>
      intro acc h
      simp only [List.foldl_cons]
      apply ih
      unfold insertNew
      by_cases hc : a ∈ acc <;> simp [hc, h, List.nodup_append]

/-- `collectColumns` is the insertion fold of the concatenated column
lists. -/
theorem collectColumnsEqFold (tables : List PgTable) : ∀ (acc : List String),
    tables.foldl (fun acc t => t.2.foldl insertNew acc) acc =
      (List.flatten (tables.map Prod.snd)).foldl insertNew acc := by
  induction tables with
  | nil => intro acc; rfl
  | cons t ts ih =>
      intro acc
      simp only [List.foldl_cons, List.map_cons, List.flatten_cons, List.foldl_append, ih]

/-- Membership in `collectColumns`: exactly the columns observed in some
input table. -/
theorem memCollectColumns (tables : List PgTable) (x : String) :
    x ∈ collectColumns tables ↔ ∃ t ∈ tables, x ∈ t.2 := by
  unfold collectColumns
  rw [collectColumnsEqFold, memFoldInsert]
  simp only [List.mem_flatten, List.mem_map, List.not_mem_nil, false_or]
  constructor
  · rintro ⟨l, ⟨t, ht, rfl⟩, hx⟩
    exact ⟨t, ht, hx⟩
  · rintro ⟨t, ht, hx⟩
    exact ⟨t.2, ⟨t, ht, rfl⟩, hx⟩

/-- The year-synthesis fold only appends; every appended entry is the
(previously absent) `_year` partner of a `_date` column of the
worklist. -/
theorem synthFoldAppend (pending : List String) : ∀ (acc : List String),
    ∃ ext, pending.foldl synthStep acc = acc ++ ext ∧
      ∀ x ∈ ext, x ∉ acc ∧ ∃ d ∈ pending, pyEndsWith d "_date" = true ∧ x = yearPartner d := by
  induction pending with
  | nil => exact fun acc => ⟨[], by simp, by simp⟩
  | cons a t ih =>
      intro acc
      simp only [List.foldl_cons]
      by_cases hc : (pyEndsWith a "_date" && !(acc.contains (yearPartner a))) = true
      · have hstep : synthStep acc a = acc ++ [yearPartner a] := by
          unfold synthStep
          rw [if_pos hc]
        obtain ⟨hdate, hnc⟩ := Bool.and_eq_true_iff.mp hc
        have hnacc : yearPartner a ∉ acc := by
          simp only [Bool.not_eq_true'] at hnc
          simpa using hnc
        obtain ⟨ext, he, hp⟩ := ih (acc ++ [yearPartner a])
        rw [hstep]
        refine ⟨yearPartner a :: ext, by simpa using he, ?_⟩
        intro x hx
        rcases List.mem_cons.mp hx with rfl | hx2
        · exact ⟨hnacc, a, List.mem_cons_self a t, hdate, rfl⟩
        · obtain ⟨hnx, d, hd, hdd, hxd⟩ := hp x hx2
          refine ⟨fun hxa => hnx (List.mem_append.mpr (Or.inl hxa)),
            d, List.mem_cons_of_mem _ hd, hdd, hxd⟩
      · have hstep : synthStep acc a = acc := by
          unfold synthStep
          rw [if_neg hc]
        obtain ⟨ext, he, hp⟩ := ih acc
        rw [hstep]
        refine ⟨ext, he, ?_⟩
        intro x hx
        obtain ⟨hnx, d, hd, hdd, hxd⟩ := hp x hx
        exact ⟨hnx, d, List.mem_cons_of_mem _ hd, hdd, hxd⟩

/-- The year-synthesis fold preserves what is already accumulated. -/
theorem synthFoldMono (pending acc : List String) (x : String) (hx : x ∈ acc) :
    x ∈ pending.foldl synthStep acc := by
  obtain ⟨ext, he, _⟩ := synthFoldAppend pending acc
  rw [he]
  exact List.mem_append.mpr (Or.inl hx)

/-- The year-synthesis fold appends the partner of every `_date` entry
of the worklist whose partner is absent. -/
theorem synthFoldComplete (pending : List String) : ∀ (acc : List String) (d : String),
    d ∈ pending → pyEndsWith d "_date" = true → yearPartner d ∉ acc →
      yearPartner d ∈ pending.foldl synthStep acc := by
  induction pending with
  | nil => intro acc d h; exact absurd h (List.not_mem_nil d)
  | cons a t ih =>
      intro acc d hd hdate hnp
      simp only [List.foldl_cons]
      rcases List.mem_cons.mp hd with rfl | hdt
      · have hc : (pyEndsWith d "_date" && !(acc.contains (yearPartner d))) = true := by
          rw [Bool.and_eq_true_iff]
          refine ⟨hdate, ?_⟩
          simp only [Bool.not_eq_true']
          simpa using hnp
        have hstep : synthStep acc d = acc ++ [yearPartner d] := by
          unfold synthStep
          rw [if_pos hc]
        rw [hstep]
        exact synthFoldMono t _ _ (List.mem_append.mpr (Or.inr (List.mem_singleton.mpr rfl)))
      · by_cases hin : yearPartner d ∈ synthStep acc a
        · exact synthFoldMono t _ _ hin
        · exact ih _ d hdt hdate hin

/-- The year-synthesis fold preserves freedom from duplicates. -/
theorem nodupSynthFold (pending : List String) : ∀ (acc : List String),
    acc.Nodup → (pending.foldl synthStep acc).Nodup := by
  induction pending with
  | nil => exact fun acc h => h
  | cons a t ih =>
      intro acc h
      simp only [List.foldl_cons]
      apply ih
      unfold synthStep
      by_cases hc : (pyEndsWith a "_date" && !(acc.contains (yearPartner a))) = true
      · rw [if_pos hc]
        obtain ⟨_, hnc⟩ := Bool.and_eq_true_iff.mp hc
        have hnacc : yearPartner a ∉ acc := by
          simp only [Bool.not_eq_true'] at hnc
          simpa using hnc
        simp [List.nodup_append, h, hnacc]
      · rw [if_neg hc]
        exact h

/-- The insertion fold is first-seen deduplication: folding `insertNew`
over a worklist appends, after the accumulator, exactly the first-seen
order of the worklist entries not already accumulated. -/
theorem foldInsertEqFirstSeen (l : List String) : ∀ (acc : List String),
    l.foldl insertNew acc = acc ++ firstSeenSpec (l.filter (fun x => !(acc.contains x))) := by
  induction l with
  | nil => intro acc; simp [firstSeenSpec]
  | cons a t ih =>
      intro acc
      simp only [List.foldl_cons]
      by_cases h : a ∈ acc
      · have hc : acc.contains a = true := by simpa using h
        have hstep : insertNew acc a = acc := by
          unfold insertNew
          rw [if_pos hc]
        rw [hstep, ih]
        have hfilter : List.filter (fun x => !(acc.contains x)) (a :: t) =
            List.filter (fun x => !(acc.contains x)) t := by
          simp [List.filter_cons, h]
        rw [hfilter]
      · have hc : acc.contains a = false := by simpa using h
        have hstep : insertNew acc a = acc ++ [a] := by
          unfold insertNew
          rw [hc]
          simp
        have hfilter : List.filter (fun x => !(acc.contains x)) (a :: t) =
            a :: List.filter (fun x => !(acc.contains x)) t := by
          simp [List.filter_cons, h]
        rw [hstep, ih, hfilter]
        have hfs : firstSeenSpec (a :: t.filter (fun x => !(acc.contains x))) =
            a :: firstSeenSpec ((t.filter (fun x => !(acc.contains x))).filter
              (fun b => b ≠ a)) := by
          simp [firstSeenSpec]
        rw [hfs, List.filter_filter]
        have hpt : ∀ x ∈ t, (decide (x ≠ a) && !(acc.contains x)) =
            !((acc ++ [a]).contains x) := by
          intro x _
          by_cases hxa : x = a
          · subst hxa
            simp
          · by_cases hxacc : x ∈ acc <;> simp [hxa, hxacc]
        rw [List.filter_congr hpt]
        simp

/-- Claim C3 counterexample.  With the single input table
`t1(project_id, sample, x_date)`, the Union Reconciler's output column
set contains the synthesized `x_year`, which no input table carries —
so the output is *not* exactly the union of the input column sets — and
`t1`'s contribution for it is the bare untyped literal
`NULL as x_year`, not a `NULL` cast to the classified type. -/
theorem c3_counterexample :
    "x_year" ∈ unionColumns [("t1", ["project_id", "sample", "x_date"])] ∧
    (∀ t ∈ [("t1", ["project_id", "sample", "x_date"])], "x_year" ∉ t.2) ∧
    "NULL as x_year" ∈ unionHeaders [("t1", ["project_id", "sample", "x_date"])]
      ("t1", ["project_id", "sample", "x_date"]) := by
  refine ⟨by decide, by decide, by decide⟩

/-- Claim C3 as amended.  Every input column appears in the Union
Reconciler's output; every output column is either an input column or
the synthesized (absent) `_year` partner of some input `_date` column;
the partner of a `_date` column absent from every input is always
synthesized; the output has no duplicate columns; and a table lacking
an output column contributes the untyped literal `NULL as {col}` for
it (no cast to the classified type is emitted). -/
theorem c3_amended (tables : List PgTable) :
    (∀ t ∈ tables, ∀ c ∈ t.2, c ∈ unionColumns tables) ∧
    (∀ c ∈ unionColumns tables, (∃ t ∈ tables, c ∈ t.2) ∨
      (∃ d, (∃ t ∈ tables, d ∈ t.2) ∧ pyEndsWith d "_date" = true ∧ c = yearPartner d ∧
        ¬ ∃ t ∈ tables, c ∈ t.2)) ∧
    (∀ d, (∃ t ∈ tables, d ∈ t.2) → pyEndsWith d "_date" = true →
      (¬ ∃ t ∈ tables, yearPartner d ∈ t.2) → yearPartner d ∈ unionColumns tables) ∧
    (unionColumns tables).Nodup ∧
    (∀ t ∈ tables, ∀ c ∈ unionColumns tables, c ∉ t.2 →
      ("NULL as " ++ c) ∈ unionHeaders tables t) := by
  refine ⟨?_, ?_, ?_, ?_, ?_⟩
  · intro t ht c hc
    unfold unionColumns synthYearCols
    exact synthFoldMono _ _ _ ((memCollectColumns tables c).mpr ⟨t, ht, hc⟩)
  · intro c hc
    unfold unionColumns synthYearCols at hc
    obtain ⟨ext, he, hp⟩ := synthFoldAppend (collectColumns tables) (collectColumns tables)
    rw [he] at hc
    rcases List.mem_append.mp hc with h1 | h1
    · exact Or.inl ((memCollectColumns tables c).mp h1)
    · obtain ⟨hnacc, d, hd, hdd, hcd⟩ := hp c h1
      refine Or.inr ⟨d, (memCollectColumns tables d).mp hd, hdd, hcd, ?_⟩
      intro hex
      exact hnacc ((memCollectColumns tables c).mpr hex)
  · intro d hd hdate hnp
    unfold unionColumns synthYearCols
    refine synthFoldComplete _ _ d ((memCollectColumns tables d).mpr hd) hdate ?_
    intro hmem
    exact hnp ((memCollectColumns tables (yearPartner d)).mp hmem)
  · have hnod : (collectColumns tables).Nodup := by
      unfold collectColumns
      rw [collectColumnsEqFold]
      exact nodupFoldInsert _ _ List.nodup_nil
    unfold unionColumns synthYearCols
    exact nodupSynthFold _ _ hnod
  · intro t ht c hc hct
    unfold unionHeaders
    refine List.mem_map.mpr ⟨c, hc, ?_⟩
    have hcf : t.2.contains c = false := by simpa using hct
    rw [hcf]
    simp

/-- Witness for `c3_amended`: on the single input table
`t1(project_id, sample, x_date)` the synthesis clause produces
`x_year` in the output. -/
theorem c3_witness :
    "x_year" ∈ unionColumns [("t1", ["project_id", "sample", "x_date"])] := by
  have h := (c3_amended [("t1", ["project_id", "sample", "x_date"])]).2.2.1
  have hx := h "x_date" ⟨("t1", ["project_id", "sample", "x_date"]), by simp, by decide⟩
    (by decide) (by decide)
  have hy : yearPartner "x_date" = "x_year" := by decide
  rwa [hy] at hx

/-- Claim C8, confirmed.  The Union Reconciler's output column list is
the first-seen deduplication — in worklist order, i.e. the order the
tables are given and their columns read — of the concatenated input
column lists, followed only by the synthesized `_year` partners (which
occur in no input).  In particular the order is the first-seen
(insertion) order, not a sorted or implementation-defined one. -/
theorem c8_first_seen_order (tables : List PgTable) :
    ∃ extra, unionColumns tables =
        firstSeenSpec (List.flatten (tables.map Prod.snd)) ++ extra ∧
      ∀ x ∈ extra, ¬ ∃ t ∈ tables, x ∈ t.2 := by
  have hcollect : collectColumns tables =
      firstSeenSpec (List.flatten (tables.map Prod.snd)) := by
    unfold collectColumns
    have hfun : ∀ l : List String,
        l.filter (fun x => !(([] : List String).contains x)) = l := by
      intro l
      simp
    rw [collectColumnsEqFold, foldInsertEqFirstSeen, List.nil_append, hfun]
  obtain ⟨ext, he, hp⟩ := synthFoldAppend (collectColumns tables) (collectColumns tables)
  refine ⟨ext, ?_, ?_⟩
  · unfold unionColumns synthYearCols
    rw [he, hcollect]
  · intro x hx hex
    exact (hp x hx).1 ((memCollectColumns tables x).mpr hex)
